import Mathlib

/-!
Verification of the composite logging dispatcher (CompositeLogger).

The dispatcher owns an ordered list of sinks and implements the same
enabled/log/flush capability contract that the sinks expose.  We embed the
dispatcher shallowly: a sink is represented by its filtering function
`enabled : Metadata → Bool`; the side effects of the opaque sink methods
`log` and `flush` are observed through explicit invocation traces that
record, in order, the position of each sink the dispatcher invokes.
-/

/-- Severity level of a log event, as in the logging facade the dispatcher
builds on: from least verbose (Error) to most verbose (Trace). -/
inductive Level where
  | Error
  | Warn
  | Info
  | Debug
  | Trace
  deriving DecidableEq

/-- Modelled from the spec: the global severity threshold value, an ordered
enum with an extra Off value below Error and Trace at the top; the
registration step sets it to its maximum (least restrictive) value.  This
type lives in the external logging facade, not in this repository. -/
inductive LevelFilter where
  | Off
  | Error
  | Warn
  | Info
  | Debug
  | Trace
  deriving DecidableEq

/-- Numeric rank of a severity threshold, Off lowest and Trace highest. -/
def LevelFilter.toNat : LevelFilter → Nat
  | .Off => 0
  | .Error => 1
  | .Warn => 2
  | .Info => 3
  | .Debug => 4
  | .Trace => 5

/-- Modelled from the spec: the maximum (least restrictive) severity
threshold returned by the facade; it accepts everything. -/
def LevelFilter.max : LevelFilter := LevelFilter.Trace

/-- Metadata of a prospective log event: severity level and target module
identifier; used only for the enabled filtering decision. -/
structure Metadata where
  level : Level
  target : String

/-- A realized log event: metadata plus message payload. -/
structure Record where
  metadata : Metadata
  args : String

/-- An opaque, externally supplied sink.  Only its `enabled` filtering
decision influences the dispatcher's control flow; the side effects of its
`log` and `flush` are observed through invocation traces. -/
structure Sink where
  enabled : Metadata → Bool

/-- The composite dispatcher: an ordered sequence of owned sinks. -/
structure CompositeLogger where
  loggers : List Sink

/-- `CompositeLogger::new` via `Self::default()`: the empty sink sequence. -/
def CompositeLogger.new : CompositeLogger := ⟨[]⟩

/-- `with_logger`: consume the builder and push the sink at the end of the
sequence (`self.loggers.push(Box::new(logger)); self`). -/
def CompositeLogger.with_logger (c : CompositeLogger) (s : Sink) : CompositeLogger :=
  ⟨c.loggers ++ [s]⟩

/-- `Log::enabled` for the dispatcher:
`self.loggers.iter().any(|logger| logger.enabled(metadata))`. -/
def CompositeLogger.enabled (c : CompositeLogger) (m : Metadata) : Bool :=
  c.loggers.any (fun s => s.enabled m)

/-- Pair each sink of the sequence with its position, starting at `k`. -/
def withPositions : Nat → List Sink → List (Nat × Sink)
  | _, [] => []
  | k, s :: rest => (k, s) :: withPositions (k + 1) rest

/-- `Log::log` for the dispatcher, observed as a trace: the code filters the
sinks by `logger.enabled(record.metadata())` and invokes `logger.log(record)`
on each sink the filter keeps, in sequence order.  The trace lists the
kept (position, sink) pairs in that order. -/
def CompositeLogger.logTrace (c : CompositeLogger) (r : Record) : List (Nat × Sink) :=
  (withPositions 0 c.loggers).filter (fun p => p.2.enabled r.metadata)

/-- `Log::flush` for the dispatcher, observed as a trace: the code invokes
`logger.flush()` on every sink via `for_each`, so the trace is the whole
positioned sequence in order. -/
def CompositeLogger.flushTrace (c : CompositeLogger) : List (Nat × Sink) :=
  withPositions 0 c.loggers

/-- Instrumented evaluation of the iterator `any` used by `enabled`: it
queries each positioned sink left to right and stops at the first sink whose
`enabled` returns true.  Returns the boolean result together with the list
of queried positions, in query order. -/
def anyTrace (m : Metadata) : List (Nat × Sink) → Bool × List Nat
  | [] => (false, [])
  | (k, s) :: rest =>
    if s.enabled m then (true, [k])
    else
      let p := anyTrace m rest
      (p.1, k :: p.2)

/-- Positions of the sinks whose `enabled` the dispatcher queries during one
`enabled(m)` call, in query order. -/
def CompositeLogger.enabledQueried (c : CompositeLogger) (m : Metadata) : List Nat :=
  (anyTrace m (withPositions 0 c.loggers)).2

/-- Boolean result of the instrumented short-circuiting evaluation of
`enabled(m)`. -/
def CompositeLogger.enabledShortCircuit (c : CompositeLogger) (m : Metadata) : Bool :=
  (anyTrace m (withPositions 0 c.loggers)).1

/-- The single error kind of the lifecycle API: a second registration
attempt against an already registered global slot. -/
inductive SetLoggerError where
  | AlreadyInitialized
  deriving DecidableEq

/-- Modelled from the spec: the process-wide global registration slot of the
external logging facade — at most one installed dispatcher plus the global
severity threshold.  The slot itself lives in the external facade, not in
this repository; only `try_init` and `init` below are repository code. -/
structure GlobalState where
  slot : Option CompositeLogger
  maxLevel : LevelFilter

/-- The fresh-process state: no dispatcher installed, threshold at its
initial Off value. -/
def GlobalState.initial : GlobalState := ⟨none, LevelFilter.Off⟩

/-- Modelled from the spec: the facade's one-shot registration primitive.
It installs the dispatcher if the slot is empty and fails, leaving the state
untouched and ownership untransferred, if a dispatcher is already
installed. -/
def GlobalState.set_boxed_logger (g : GlobalState) (c : CompositeLogger) :
    GlobalState × Except SetLoggerError Unit :=
  match g.slot with
  | none => ({ g with slot := some c }, Except.ok ())
  | some _ => (g, Except.error SetLoggerError.AlreadyInitialized)

/-- Modelled from the spec: the facade's global severity threshold setter. -/
def GlobalState.set_max_level (g : GlobalState) (f : LevelFilter) : GlobalState :=
  { g with maxLevel := f }

/-- `CompositeLogger::try_init`: call `set_boxed_logger`; if and only if it
succeeded, set the global threshold to `LevelFilter::max()`; return the
registration result either way. -/
def GlobalState.try_init (g : GlobalState) (c : CompositeLogger) :
    GlobalState × Except SetLoggerError Unit :=
  let p := g.set_boxed_logger c
  match p.2 with
  | Except.ok _ => (p.1.set_max_level LevelFilter.max, p.2)
  | Except.error _ => p

/-- Observable outcome of `CompositeLogger::init`: either the registration
succeeded, or the process was terminated by the `expect` panic. -/
inductive InitOutcome where
  | ok (g : GlobalState)
  | panicked (g : GlobalState) (msg : String)

/-- `CompositeLogger::init`: `self.try_init().expect(...)` — identical to
`try_init` on success, terminates the program on failure. -/
def GlobalState.init (g : GlobalState) (c : CompositeLogger) : InitOutcome :=
  match g.try_init c with
  | (g1, Except.ok _) => InitOutcome.ok g1
  | (g1, Except.error _) =>
    InitOutcome.panicked g1
      "CompositeLogger::init should not be called after logger initialized"

/-- The sink at position `i` appears, paired with position `k + i`, in the
positioned sequence started at `k`. -/
theorem withPositions_mem_get (l : List Sink) (k i : Nat) (h : i < l.length) :
    (k + i, l.get ⟨i, h⟩) ∈ withPositions k l := by
  induction l generalizing k i with
  | nil => simp at h
  | cons s rest ih =>
    cases i with
    | zero => simp [withPositions]
    | succ i' =>
      have h' : i' < rest.length := by simpa using Nat.lt_of_succ_lt_succ h
      have hmem := ih (k + 1) i' h'
      have harith : k + (i' + 1) = (k + 1) + i' := by omega
      simp only [withPositions, List.mem_cons]
      right
      rw [harith]
      simpa using hmem

/-- Every member of the positioned sequence started at `k` is the sink at
some position `i`, paired with `k + i`. -/
theorem withPositions_mem_inv (l : List Sink) (k : Nat) (p : Nat × Sink)
    (hp : p ∈ withPositions k l) :
    ∃ i, ∃ h : i < l.length, p = (k + i, l.get ⟨i, h⟩) := by
  induction l generalizing k with
  | nil => simp [withPositions] at hp
  | cons s rest ih =>
    simp only [withPositions, List.mem_cons] at hp
    rcases hp with h0 | h1
    · exact ⟨0, by simp, by simpa using h0⟩
    · rcases ih (k + 1) h1 with ⟨i, hi, heq⟩
      refine ⟨i + 1, by simpa using Nat.succ_lt_succ hi, ?_⟩
      rw [heq]
      have harith : k + (i + 1) = (k + 1) + i := by omega
      simp [harith]

/-- Positions in the positioned sequence started at `k` are at least `k`. -/
theorem withPositions_fst_ge (l : List Sink) (k : Nat) (p : Nat × Sink)
    (hp : p ∈ withPositions k l) : k ≤ p.1 := by
  rcases withPositions_mem_inv l k p hp with ⟨i, hi, heq⟩
  rw [heq]
  exact Nat.le_add_right k i

/-- The positioned sequence is strictly increasing in its positions. -/
theorem withPositions_pairwise (l : List Sink) (k : Nat) :
    (withPositions k l).Pairwise (fun p q => p.1 < q.1) := by
  induction l generalizing k with
  | nil => simp [withPositions]
  | cons s rest ih =>
    rw [withPositions, List.pairwise_cons]
    refine ⟨fun q hq => ?_, ih (k + 1)⟩
    have hk := withPositions_fst_ge rest (k + 1) q hq
    show k < q.1
    omega

/-- The positions of the positioned sequence are the consecutive range of
length `l.length` starting at `k`. -/
theorem withPositions_map_fst (l : List Sink) (k : Nat) :
    (withPositions k l).map Prod.fst = List.range' k l.length := by
  induction l generalizing k with
  | nil => simp [withPositions]
  | cons s rest ih => simp [withPositions, List.range'_succ, ih (k + 1)]

/-- The instrumented short-circuiting evaluation returns the same boolean as
the plain `any` over the sinks. -/
theorem anyTrace_fst (l : List Sink) (k : Nat) (m : Metadata) :
    (anyTrace m (withPositions k l)).1 = l.any (fun s => s.enabled m) := by
  induction l generalizing k with
  | nil => simp [withPositions, anyTrace]
  | cons s rest ih =>
    cases hs : s.enabled m with
    | true => simp [withPositions, anyTrace, hs]
    | false => simp [withPositions, anyTrace, hs, ih (k + 1)]

/-- If position `j` was queried, every sink at an earlier position rejected
the metadata: the evaluation only moves past a sink that returned false. -/
theorem anyTrace_queried_before (l : List Sink) (k : Nat) (m : Metadata) (j : Nat)
    (hj : j ∈ (anyTrace m (withPositions k l)).2) :
    ∀ i, ∀ h : i < l.length, k + i < j → (l.get ⟨i, h⟩).enabled m = false := by
  induction l generalizing k with
  | nil => simp [withPositions, anyTrace] at hj
  | cons s rest ih =>
    intro i hi hlt
    cases hs : s.enabled m with
    | true =>
      rw [withPositions] at hj
      simp [anyTrace, hs] at hj
      omega
    | false =>
      rw [withPositions] at hj
      simp only [anyTrace, hs, Bool.false_eq_true, if_false, List.mem_cons] at hj
      cases i with
      | zero =>
        simpa using hs
      | succ i' =>
        rcases hj with rfl | hj2
        · omega
        · have h' : i' < rest.length := by simpa using Nat.lt_of_succ_lt_succ hi
          have := ih (k + 1) hj2 i' h' (by omega)
          simpa using this

/-- Queried positions are at least the start position `k`. -/
theorem anyTrace_mem_ge (l : List Sink) (k : Nat) (m : Metadata) (j : Nat)
    (hj : j ∈ (anyTrace m (withPositions k l)).2) : k ≤ j := by
  induction l generalizing k with
  | nil => simp [withPositions, anyTrace] at hj
  | cons s rest ih =>
    rw [withPositions] at hj
    cases hs : s.enabled m with
    | true =>
      simp [anyTrace, hs] at hj
      omega
    | false =>
      simp only [anyTrace, hs, Bool.false_eq_true, if_false, List.mem_cons] at hj
      rcases hj with rfl | hj2
      · exact Nat.le_refl j
      · exact Nat.le_of_succ_le (ih (k + 1) hj2)

/-- Queried positions come in strictly increasing (insertion) order. -/
theorem anyTrace_pairwise (l : List Sink) (k : Nat) (m : Metadata) :
    ((anyTrace m (withPositions k l)).2).Pairwise (fun a b => a < b) := by
  induction l generalizing k with
  | nil => simp [withPositions, anyTrace]
  | cons s rest ih =>
    rw [withPositions]
    cases hs : s.enabled m with
    | true => simp [anyTrace, hs]
    | false =>
      have h2 : (anyTrace m ((k, s) :: withPositions (k + 1) rest)).2
          = k :: (anyTrace m (withPositions (k + 1) rest)).2 := by
        simp [anyTrace, hs]
      rw [h2, List.pairwise_cons]
      refine ⟨fun b hb => ?_, ih (k + 1)⟩
      have := anyTrace_mem_ge rest (k + 1) m b hb
      omega

/-- A concrete sink that accepts every metadata. -/
def sinkAll : Sink := ⟨fun _ => true⟩

/-- A concrete sink that rejects every metadata. -/
def sinkNone : Sink := ⟨fun _ => false⟩

/-- A concrete metadata value. -/
def mdInfo : Metadata := ⟨Level.Info, "app"⟩

/-- A concrete record value. -/
def recInfo : Record := ⟨mdInfo, "hello"⟩

/-- A concrete two-sink dispatcher: a rejecting sink before an accepting
sink. -/
def twoSinks : CompositeLogger :=
  (CompositeLogger.new.with_logger sinkNone).with_logger sinkAll

/-- A concrete two-sink dispatcher: an accepting sink before a rejecting
sink, exercising the short-circuit of `enabled`. -/
def shortDispatcher : CompositeLogger :=
  (CompositeLogger.new.with_logger sinkAll).with_logger sinkNone

/-- C1: the dispatcher's `enabled(m)` returns true iff at least one owned
sink's `enabled(m)` returns true (logical OR over the sequence); in
particular the empty dispatcher returns false. -/
theorem C1_enabled_or (c : CompositeLogger) (m : Metadata) :
    (c.enabled m = true ↔ ∃ s ∈ c.loggers, s.enabled m = true)
    ∧ CompositeLogger.new.enabled m = false :=
  ⟨List.any_eq_true, rfl⟩

/-- C2: `log(r)` invokes the sink at position `i` iff that sink's
`enabled(r.metadata)` returns true, each sink being filtered independently
with no global filter before the per-sink loop. -/
theorem C2_log_filter (c : CompositeLogger) (r : Record) (i : Nat)
    (h : i < c.loggers.length) :
    (i, c.loggers.get ⟨i, h⟩) ∈ c.logTrace r
      ↔ (c.loggers.get ⟨i, h⟩).enabled r.metadata = true := by
  unfold CompositeLogger.logTrace
  rw [List.mem_filter]
  have hmem := withPositions_mem_get c.loggers 0 i h
  rw [Nat.zero_add] at hmem
  simp only [List.get_eq_getElem] at hmem
  simp [hmem]

/-- C2 witness at a concrete dispatcher, record and position. -/
theorem C2_witness :
    (1, twoSinks.loggers.get ⟨1, by decide⟩) ∈ twoSinks.logTrace recInfo
      ↔ (twoSinks.loggers.get ⟨1, by decide⟩).enabled recInfo.metadata = true :=
  C2_log_filter twoSinks recInfo 1 (by decide)

/-- C3: `flush()` invokes every owned sink exactly once per call, in
sequence order (the flush trace is exactly the positioned sequence, whose
positions are `range` in order, each occurring once), independently of any
`enabled` state. -/
theorem C3_flush_all (c : CompositeLogger) (i : Nat) (h : i < c.loggers.length) :
    c.flushTrace.map Prod.fst = List.range c.loggers.length
    ∧ (i, c.loggers.get ⟨i, h⟩) ∈ c.flushTrace
    ∧ (c.flushTrace.map Prod.fst).count i = 1 := by
  have hmap : c.flushTrace.map Prod.fst = List.range c.loggers.length := by
    rw [CompositeLogger.flushTrace, withPositions_map_fst]
    exact (List.range_eq_range' _).symm
  refine ⟨hmap, ?_, ?_⟩
  · have hmem := withPositions_mem_get c.loggers 0 i h
    rwa [Nat.zero_add] at hmem
  · rw [hmap]
    exact List.count_eq_one_of_mem (List.nodup_range _) (List.mem_range.mpr h)

/-- C3 witness at a concrete dispatcher and position. -/
theorem C3_witness :
    twoSinks.flushTrace.map Prod.fst = List.range twoSinks.loggers.length
    ∧ (0, twoSinks.loggers.get ⟨0, by decide⟩) ∈ twoSinks.flushTrace
    ∧ (twoSinks.flushTrace.map Prod.fst).count 0 = 1 :=
  C3_flush_all twoSinks 0 (by decide)

/-- C4: from the Unregistered state `try_init` succeeds and installs the
dispatcher; from any Registered state `try_init` returns AlreadyInitialized
and leaves the whole global state — registration and threshold — unchanged,
transferring no ownership. -/
theorem C4_try_init_once (g g2 : GlobalState) (c c2 d : CompositeLogger)
    (h0 : g.slot = none) (h1 : g2.slot = some d) :
    (g.try_init c).2 = Except.ok ()
    ∧ ((g.try_init c).1).slot = some c
    ∧ (g2.try_init c2).2 = Except.error SetLoggerError.AlreadyInitialized
    ∧ (g2.try_init c2).1 = g2 := by
  have e1 : g.set_boxed_logger c = ({ g with slot := some c }, Except.ok ()) := by
    rw [GlobalState.set_boxed_logger, h0]
  have e2 : g2.set_boxed_logger c2 = (g2, Except.error SetLoggerError.AlreadyInitialized) := by
    rw [GlobalState.set_boxed_logger, h1]
  refine ⟨?_, ?_, ?_, ?_⟩ <;>
    simp [GlobalState.try_init, e1, e2, GlobalState.set_max_level]

/-- C4 witness: a fresh state and a registered state, with concrete
dispatchers. -/
theorem C4_witness :
    (GlobalState.initial.try_init CompositeLogger.new).2 = Except.ok ()
    ∧ ((GlobalState.initial.try_init CompositeLogger.new).1).slot = some CompositeLogger.new
    ∧ ((GlobalState.mk (some CompositeLogger.new) LevelFilter.Trace).try_init twoSinks).2
        = Except.error SetLoggerError.AlreadyInitialized
    ∧ ((GlobalState.mk (some CompositeLogger.new) LevelFilter.Trace).try_init twoSinks).1
        = GlobalState.mk (some CompositeLogger.new) LevelFilter.Trace :=
  C4_try_init_once GlobalState.initial
    (GlobalState.mk (some CompositeLogger.new) LevelFilter.Trace)
    CompositeLogger.new twoSinks CompositeLogger.new rfl rfl

/-- C5: `init` agrees with `try_init` on success and terminates the program
(panics) exactly when `try_init` would return the error. -/
theorem C5_init_behavior (g g2 g1 g3 : GlobalState) (c c2 : CompositeLogger)
    (e : SetLoggerError)
    (hok : g.try_init c = (g1, Except.ok ()))
    (herr : g2.try_init c2 = (g3, Except.error e)) :
    g.init c = InitOutcome.ok g1
    ∧ g2.init c2 = InitOutcome.panicked g3
        "CompositeLogger::init should not be called after logger initialized" := by
  constructor
  · rw [GlobalState.init, hok]
  · rw [GlobalState.init, herr]

/-- C5 witness: a successful and a failing initialization, evaluated at
concrete states. -/
theorem C5_witness :
    GlobalState.initial.init CompositeLogger.new
      = InitOutcome.ok (GlobalState.mk (some CompositeLogger.new) LevelFilter.Trace)
    ∧ (GlobalState.mk (some CompositeLogger.new) LevelFilter.Trace).init CompositeLogger.new
      = InitOutcome.panicked (GlobalState.mk (some CompositeLogger.new) LevelFilter.Trace)
          "CompositeLogger::init should not be called after logger initialized" :=
  C5_init_behavior GlobalState.initial
    (GlobalState.mk (some CompositeLogger.new) LevelFilter.Trace)
    (GlobalState.mk (some CompositeLogger.new) LevelFilter.Trace)
    (GlobalState.mk (some CompositeLogger.new) LevelFilter.Trace)
    CompositeLogger.new CompositeLogger.new SetLoggerError.AlreadyInitialized rfl rfl

/-- C6: a successful `try_init` sets the global severity threshold to the
maximum (least restrictive) value; a failed `try_init` leaves the threshold
unmodified; and that value is indeed the maximum of the threshold order. -/
theorem C6_max_level (g g2 : GlobalState) (c c2 d : CompositeLogger)
    (h0 : g.slot = none) (h1 : g2.slot = some d) :
    ((g.try_init c).1).maxLevel = LevelFilter.max
    ∧ ((g2.try_init c2).1).maxLevel = g2.maxLevel
    ∧ ∀ f : LevelFilter, f.toNat ≤ LevelFilter.max.toNat := by
  have e1 : g.set_boxed_logger c = ({ g with slot := some c }, Except.ok ()) := by
    rw [GlobalState.set_boxed_logger, h0]
  have e2 : g2.set_boxed_logger c2 = (g2, Except.error SetLoggerError.AlreadyInitialized) := by
    rw [GlobalState.set_boxed_logger, h1]
  refine ⟨?_, ?_, ?_⟩
  · simp [GlobalState.try_init, e1, GlobalState.set_max_level]
  · simp [GlobalState.try_init, e2]
  · intro f
    cases f <;> decide

/-- C6 witness: threshold after a successful and after a failed
registration, at concrete states. -/
theorem C6_witness :
    ((GlobalState.initial.try_init CompositeLogger.new).1).maxLevel = LevelFilter.max
    ∧ (((GlobalState.mk (some CompositeLogger.new) LevelFilter.Off).try_init twoSinks).1).maxLevel
        = (GlobalState.mk (some CompositeLogger.new) LevelFilter.Off).maxLevel
    ∧ ∀ f : LevelFilter, f.toNat ≤ LevelFilter.max.toNat :=
  C6_max_level GlobalState.initial
    (GlobalState.mk (some CompositeLogger.new) LevelFilter.Off)
    CompositeLogger.new twoSinks CompositeLogger.new rfl rfl

/-- C7: dispatch order equals builder insertion order: a dispatcher built as
with_logger(A).with_logger(B) logs to A (position 0) before B (position 1)
when both accept, and in general the log and flush traces are strictly
increasing in position. -/
theorem C7_order (A B : Sink) (r : Record) (c : CompositeLogger)
    (hA : A.enabled r.metadata = true) (hB : B.enabled r.metadata = true) :
    ((CompositeLogger.new.with_logger A).with_logger B).logTrace r = [(0, A), (1, B)]
    ∧ (c.logTrace r).Pairwise (fun p q => p.1 < q.1)
    ∧ c.flushTrace.Pairwise (fun p q => p.1 < q.1) := by
  refine ⟨?_, ?_, withPositions_pairwise c.loggers 0⟩
  · simp [CompositeLogger.logTrace, CompositeLogger.new, CompositeLogger.with_logger,
      withPositions, hA, hB]
  · unfold CompositeLogger.logTrace
    exact (withPositions_pairwise c.loggers 0).filter _

/-- C7 witness at concrete sinks and a concrete record. -/
theorem C7_witness :
    ((CompositeLogger.new.with_logger sinkAll).with_logger sinkAll).logTrace recInfo
        = [(0, sinkAll), (1, sinkAll)]
    ∧ (twoSinks.logTrace recInfo).Pairwise (fun p q => p.1 < q.1)
    ∧ twoSinks.flushTrace.Pairwise (fun p q => p.1 < q.1) :=
  C7_order sinkAll sinkAll recInfo twoSinks rfl rfl

/-- C8: `with_logger` appends the sink at the end: the length grows by one,
each previously added sink keeps its position, and the new sink — duplicate
or not — occupies the fresh last position. -/
theorem C8_with_logger_append (c : CompositeLogger) (s : Sink) (i : Nat)
    (h : i < c.loggers.length) :
    (c.with_logger s).loggers.length = c.loggers.length + 1
    ∧ (c.with_logger s).loggers[i]? = c.loggers[i]?
    ∧ (c.with_logger s).loggers[c.loggers.length]? = some s := by
  refine ⟨by simp [CompositeLogger.with_logger], ?_, ?_⟩
  · show (c.loggers ++ [s])[i]? = c.loggers[i]?
    exact List.getElem?_append_left h
  · show (c.loggers ++ [s])[c.loggers.length]? = some s
    exact List.getElem?_concat_length _ _

/-- C8 witness: appending a duplicate sink to a concrete two-sink builder. -/
theorem C8_witness :
    (twoSinks.with_logger sinkNone).loggers.length = twoSinks.loggers.length + 1
    ∧ (twoSinks.with_logger sinkNone).loggers[0]? = twoSinks.loggers[0]?
    ∧ (twoSinks.with_logger sinkNone).loggers[twoSinks.loggers.length]? = some sinkNone :=
  C8_with_logger_append twoSinks sinkNone 0 (by decide)

/-- C9: the dispatcher built with zero sinks rejects every metadata, logs to
no sink for every record, and flushes nothing. -/
theorem C9_empty (m : Metadata) (r : Record) :
    CompositeLogger.new.enabled m = false
    ∧ CompositeLogger.new.logTrace r = []
    ∧ CompositeLogger.new.flushTrace = [] :=
  ⟨rfl, rfl, rfl⟩

/-- C10: `enabled(m)` queries the sinks in insertion order and
short-circuits: no sink positioned after an accepting sink is queried, the
queried positions are strictly increasing, and the short-circuiting
evaluation computes the same boolean as `enabled`. -/
theorem C10_short_circuit (c : CompositeLogger) (m : Metadata) (i j : Nat)
    (hi : i < c.loggers.length) (hij : i < j)
    (hacc : (c.loggers.get ⟨i, hi⟩).enabled m = true) :
    j ∉ c.enabledQueried m
    ∧ c.enabledShortCircuit m = c.enabled m
    ∧ (c.enabledQueried m).Pairwise (fun a b => a < b) := by
  refine ⟨?_, anyTrace_fst c.loggers 0 m, anyTrace_pairwise c.loggers 0 m⟩
  intro hj
  have hfalse := anyTrace_queried_before c.loggers 0 m j hj i hi (by omega)
  rw [hfalse] at hacc
  exact Bool.false_ne_true hacc

/-- C10 witness: with an accepting sink at position 0, position 1 is never
queried. -/
theorem C10_witness :
    1 ∉ shortDispatcher.enabledQueried mdInfo
    ∧ shortDispatcher.enabledShortCircuit mdInfo = shortDispatcher.enabled mdInfo
    ∧ (shortDispatcher.enabledQueried mdInfo).Pairwise (fun a b => a < b) :=
  C10_short_circuit shortDispatcher mdInfo 0 1 (by decide) (by decide) rfl
